import Mathlib

/-
Verification of the Candidate Discovery & Weighted Matching Pipeline.

This file gives a shallow embedding, in Lean 4, of the pipeline's pure core:
the Weight Allocator (`calculateWeights`), the Match Scorer (`calculateMatch`),
the Profile Normalizer (the normalization step of `extractPatientData`), and
the classification/deduplication/orchestration logic of the search route
(`dedupeByUrl`, `isCampaignUrl`, `likelyCampaigns`, `pipelineComplete`).
JavaScript strings are modelled through their character lists; JavaScript
truthiness on optional numbers and strings is modelled explicitly.
-/

set_option autoImplicit false
set_option maxHeartbeats 1000000

namespace ClinicalMatch

/- String helpers modelling the JavaScript string operations used by the
pipeline: `toLowerCase`, `includes`, `endsWith` and `trim`. -/

/-- Checks whether the first character list begins the second one. -/
def startsWithL : List Char → List Char → Bool
  | [], _ => true
  | _ :: _, [] => false
  | a :: as, b :: bs => a == b && startsWithL as bs

/-- Checks whether `needle` occurs contiguously inside the second list. -/
def hasSubL (needle : List Char) : List Char → Bool
  | [] => startsWithL needle []
  | c :: rest => startsWithL needle (c :: rest) || hasSubL needle rest

/-- Models `String.prototype.toLowerCase` (ASCII range). -/
def jsToLower (s : String) : String := ⟨s.data.map Char.toLower⟩

/-- Models `haystack.includes(needle)`. -/
def jsIncludes (s sub : String) : Bool := hasSubL sub.data s.data

/-- Models `s.endsWith(suf)`. -/
def jsEndsWith (s suf : String) : Bool := startsWithL suf.data.reverse s.data.reverse

/-- Models `s.trim()`: drops leading and trailing whitespace. -/
def jsTrim (s : String) : String :=
  ⟨((s.data.dropWhile Char.isWhitespace).reverse.dropWhile Char.isWhitespace).reverse⟩

/-- JavaScript truthiness of a nullable number: `null`, `undefined` and `0`
are falsy. -/
def truthyInt : Option Int → Bool
  | none => false
  | some n => n != 0

/-- JavaScript truthiness of a nullable string: `null`, `undefined` and the
empty string are falsy. -/
def truthyStr : Option String → Bool
  | none => false
  | some s => s != ""

/- Data model: `TrialCriteria` from parse-criteria.ts and the four scoreable
attribute fields. -/

/-- The four scoreable attributes (the members of `priorityOrder`). -/
inductive CField where
  | age
  | gender
  | conditions
  | location
deriving DecidableEq, Repr, Fintype

/-- The `age` member of `TrialCriteria`: `{ min?, max? }`. -/
structure AgeRange where
  min : Option Int
  max : Option Int
deriving DecidableEq, Repr

/-- The `TrialCriteria` record from parse-criteria.ts; every field is optional in the
zod schema. -/
structure TrialCriteria where
  age : Option AgeRange := none
  gender : Option (List String) := none
  conditions : Option (List String) := none
  location : Option String := none
  exclusions : Option (List String) := none
  priorityOrder : Option (List CField) := none
deriving DecidableEq, Repr

/-- The weight record returned by `calculateWeights`. All assigned values in
the source are non-negative integer literals, so weights are naturals. -/
structure Weights where
  age : Nat
  gender : Nat
  conditions : Nat
  location : Nat
deriving DecidableEq, Repr

/-- Models `weights[field] = v` of the source. -/
def Weights.set (w : Weights) : CField → Nat → Weights
  | .age, v => { w with age := v }
  | .gender, v => { w with gender := v }
  | .conditions, v => { w with conditions := v }
  | .location, v => { w with location := v }

/-- Reads the entry of a weight record at a field. -/
def Weights.get (w : Weights) : CField → Nat
  | .age => w.age
  | .gender => w.gender
  | .conditions => w.conditions
  | .location => w.location

/-- The total of the four entries of a weight record. -/
def Weights.total (w : Weights) : Nat := w.age + w.gender + w.conditions + w.location

/-- The per-field specifiedness test of `calculateWeights`: conditions and
gender need a non-empty list, age needs a truthy bound (`min || max`),
location needs a truthy string. -/
def fieldSpecified (c : TrialCriteria) : CField → Bool
  | .conditions =>
    match c.conditions with
    | some l => decide (l.length > 0)
    | none => false
  | .gender =>
    match c.gender with
    | some l => decide (l.length > 0)
    | none => false
  | .age =>
    match c.age with
    | some a => truthyInt a.min || truthyInt a.max
    | none => false
  | .location => truthyStr c.location

/-- The fallback branch of `calculateWeights`: push the specified fields in
the fixed order conditions, gender, age, location. -/
def fallbackSpecified (c : TrialCriteria) : List CField :=
  (if fieldSpecified c CField.conditions then [CField.conditions] else []) ++
  (if fieldSpecified c CField.gender then [CField.gender] else []) ++
  (if fieldSpecified c CField.age then [CField.age] else []) ++
  (if fieldSpecified c CField.location then [CField.location] else [])

/-- The `specifiedCriteria` list of `calculateWeights`: an externally supplied
non-empty `priorityOrder` is filtered by specifiedness, otherwise the fixed
fallback order is used. -/
def specifiedCriteria (c : TrialCriteria) : List CField :=
  match c.priorityOrder with
  | some po => if po.length > 0 then po.filter (fieldSpecified c) else fallbackSpecified c
  | none => fallbackSpecified c

/-- The field list `['age', 'gender', 'conditions', 'location']` used to
compute the unspecified residual fields. -/
def allFields : List CField := [CField.age, CField.gender, CField.conditions, CField.location]

/-- The allocation switch of `calculateWeights`, keyed by the length of the
specified list; assignments happen in source order, so a repeated field is
overwritten by its later assignment. -/
def allocateWeights : List CField → Weights
  | [] => ⟨25, 20, 40, 15⟩
  | [a] => (Weights.mk 0 0 0 0).set a 100
  | [a, b] =>
    let w := ((Weights.mk 0 0 0 0).set a 60).set b 30
    (allFields.filter (fun f => !([a, b].contains f))).foldl (fun w f => w.set f 5) w
  | [a, b, c] =>
    let w := (((Weights.mk 0 0 0 0).set a 50).set b 30).set c 15
    match allFields.filter (fun f => !([a, b, c].contains f)) with
    | u :: _ => w.set u 5
    | [] => w
  | a :: b :: c :: d :: _ =>
    ((((Weights.mk 0 0 0 0).set a 40).set b 30).set c 20).set d 10

/-- The function `calculateWeights` from calculate-match.ts. -/
def calculateWeights (c : TrialCriteria) : Weights :=
  allocateWeights (specifiedCriteria c)

/-- When the specified list has no repeated field, the allocation always
totals 100. -/
theorem allocateWeights_total : ∀ l : List CField, l.Nodup → (allocateWeights l).total = 100
  | [], _ => rfl
  | [a], _ => by cases a <;> rfl
  | [a, b], h => by
    cases a <;> cases b <;> first | decide | exact absurd h (by decide)
  | [a, b, c], h => by
    cases a <;> cases b <;> cases c <;> first | decide | exact absurd h (by decide)
  | [a, b, c, d], h => by
    cases a <;> cases b <;> cases c <;> cases d <;> first | decide | exact absurd h (by decide)
  | a :: b :: c :: d :: e :: rest, h => by
    exfalso
    have hle := h.length_le_card
    have hcard : Fintype.card CField = 4 := rfl
    rw [hcard] at hle
    simp [List.length_cons] at hle

/-- A Criteria whose supplied priority order repeats the conditions field. -/
def critRepeatPriority : TrialCriteria :=
  { conditions := some ["diabetes"],
    priorityOrder := some [CField.conditions, CField.conditions] }

/-- A Criteria with two specified attributes and no priority order. -/
def critTwoSpecified : TrialCriteria :=
  { conditions := some ["cancer"], location := some "Boston" }

/-- A Criteria with three specified attributes and no priority order. -/
def critThreeSpecified : TrialCriteria :=
  { conditions := some ["diabetes"], gender := some ["female"],
    age := some ⟨some 50, none⟩ }

/-- C1 counterexample: with a repeated `priorityOrder` entry the two rank
assignments hit the same field and the later one overwrites the earlier, so
the returned weights total 45, not 100. -/
theorem C1_counterexample :
    (calculateWeights critRepeatPriority).total = 45 ∧
    (calculateWeights critRepeatPriority).total ≠ 100 := by
  constructor <;> decide

/-- C1 (amended): whenever the specified-attribute list derived from the
Criteria has no repeated field — in particular for every `priorityOrder`
without repeated entries, and always when `priorityOrder` is absent or
empty — `calculateWeights` returns four natural-number (hence non-negative)
entries totalling exactly 100. -/
theorem C1_calculateWeights_total (c : TrialCriteria)
    (h : (specifiedCriteria c).Nodup) : (calculateWeights c).total = 100 :=
  allocateWeights_total _ h

/-- C1 witness: a concrete Criteria with two specified attributes. -/
theorem C1_witness :
    (specifiedCriteria critTwoSpecified).Nodup ∧
    (calculateWeights critTwoSpecified).total = 100 :=
  ⟨by decide, C1_calculateWeights_total _ (by decide)⟩

/-- C8: with a non-empty conditions list and no (or an empty) priority order,
the fallback order places conditions first, and the rank-1 allocation
(100, 60, 50 or 40) dominates every other entry (at most 30, or residual 5). -/
theorem C8_conditions_highest (c : TrialCriteria) (l : List String)
    (hc : c.conditions = some l) (hl : l.length > 0)
    (hp : c.priorityOrder = none ∨ c.priorityOrder = some []) :
    (calculateWeights c).conditions ≥ (calculateWeights c).age ∧
    (calculateWeights c).conditions ≥ (calculateWeights c).gender ∧
    (calculateWeights c).conditions ≥ (calculateWeights c).location := by
  have hspec : specifiedCriteria c = fallbackSpecified c := by
    rcases hp with hp | hp <;> simp [specifiedCriteria, hp]
  have hcond : fieldSpecified c CField.conditions = true := by
    simp [fieldSpecified, hc]
    omega
  rw [calculateWeights, hspec]
  unfold fallbackSpecified
  rw [hcond]
  cases hg : fieldSpecified c CField.gender <;>
    cases ha : fieldSpecified c CField.age <;>
    cases hloc : fieldSpecified c CField.location <;>
    simp only [if_true, if_false] <;> decide

/-- C8 witness: a concrete Criteria with conditions, gender and age given and
no priority order. -/
theorem C8_witness :
    (calculateWeights critThreeSpecified).conditions ≥ (calculateWeights critThreeSpecified).age ∧
    (calculateWeights critThreeSpecified).conditions ≥ (calculateWeights critThreeSpecified).gender ∧
    (calculateWeights critThreeSpecified).conditions ≥ (calculateWeights critThreeSpecified).location :=
  C8_conditions_highest _ ["diabetes"] rfl (by decide) (Or.inl rfl)

/- Match Scorer: `calculateMatch` and its condition- and location-matching
strategies. -/

/-- The `PatientData` record as produced by extract-patient.ts (the extracted object
fields; `campaign_url` and `raw_description` are carried separately by the
route and never read by the scorer). -/
structure PatientData where
  name : Option String := none
  organizerName : Option String := none
  age : Option Int := none
  gender : Option String := none
  conditions : Option (List String) := none
  location : Option String := none
deriving DecidableEq, Repr

/-- The per-attribute boolean record of a `MatchResult`; a key is `none` when
that attribute was not evaluated. -/
structure Breakdown where
  age : Option Bool := none
  gender : Option Bool := none
  conditions : Option Bool := none
  location : Option Bool := none
deriving DecidableEq, Repr

/-- The `MatchResult` record from calculate-match.ts. -/
structure MatchResult where
  score : Nat
  breakdown : Breakdown
  weights : Weights
deriving DecidableEq, Repr

/-- The `medicalKeywords` array of the conditions check. -/
def medicalKeywords : List String :=
  ["heart", "lung", "kidney", "liver", "brain", "cancer", "diabetes",
   "stroke", "arthritis", "asthma", "copd", "dementia", "alzheimer",
   "parkinson", "ms", "multiple sclerosis", "als", "leukemia", "lymphoma",
   "breast", "prostate", "colon", "pancreatic", "ovarian", "melanoma",
   "cardiomyopathy", "congestive", "pulmonary", "renal", "hepatic",
   "neurological", "cardiovascular", "respiratory", "oncology"]

/-- The `relatedTerms` synonym table of the conditions check. -/
def relatedTerms : List (String × List String) :=
  [("cancer", ["tumor", "carcinoma", "sarcoma", "leukemia", "lymphoma", "melanoma", "oncology"]),
   ("tumor", ["cancer", "carcinoma", "sarcoma", "mass", "neoplasm"]),
   ("diabetes", ["diabetic", "hyperglycemia", "insulin"]),
   ("stroke", ["cerebrovascular", "cva", "brain attack"]),
   ("copd", ["chronic obstructive pulmonary", "emphysema", "chronic bronchitis"]),
   ("mi", ["myocardial infarction", "heart attack"]),
   ("chf", ["congestive heart failure", "heart failure"])]

/-- The `stateMap` state-abbreviation table of the location check. -/
def stateMap : List (String × List String) :=
  [("new york", ["ny", "n.y."]),
   ("california", ["ca", "calif"]),
   ("texas", ["tx"]),
   ("florida", ["fl", "fla"]),
   ("pennsylvania", ["pa"]),
   ("illinois", ["il"]),
   ("ohio", ["oh"]),
   ("georgia", ["ga"]),
   ("north carolina", ["nc", "n.c."]),
   ("michigan", ["mi"]),
   ("new jersey", ["nj", "n.j."]),
   ("virginia", ["va"]),
   ("washington", ["wa"]),
   ("arizona", ["az"]),
   ("massachusetts", ["ma", "mass"]),
   ("tennessee", ["tn"]),
   ("indiana", ["in"]),
   ("missouri", ["mo"]),
   ("maryland", ["md"]),
   ("wisconsin", ["wi"]),
   ("colorado", ["co"]),
   ("minnesota", ["mn"]),
   ("south carolina", ["sc", "s.c."]),
   ("alabama", ["al"]),
   ("louisiana", ["la"]),
   ("kentucky", ["ky"]),
   ("oregon", ["or"]),
   ("oklahoma", ["ok"]),
   ("connecticut", ["ct"]),
   ("utah", ["ut"]),
   ("iowa", ["ia"]),
   ("nevada", ["nv"]),
   ("arkansas", ["ar"]),
   ("mississippi", ["ms"]),
   ("kansas", ["ks"]),
   ("new mexico", ["nm", "n.m."]),
   ("nebraska", ["ne"]),
   ("west virginia", ["wv", "w.v."]),
   ("idaho", ["id"]),
   ("hawaii", ["hi"]),
   ("new hampshire", ["nh", "n.h."]),
   ("maine", ["me"]),
   ("rhode island", ["ri", "r.i."]),
   ("montana", ["mt"]),
   ("delaware", ["de"]),
   ("south dakota", ["sd", "s.d."]),
   ("north dakota", ["nd", "n.d."]),
   ("alaska", ["ak"]),
   ("vermont", ["vt"]),
   ("wyoming", ["wy"])]

/-- Strategy 1 of the conditions check: case-folded substring containment in
either direction (both arguments are already lowercased and trimmed). -/
def substringStrategy (requiredLower patientLower : String) : Bool :=
  jsIncludes patientLower requiredLower || jsIncludes requiredLower patientLower

/-- Strategy 2 of the conditions check: both strings contain at least one
common entry of `medicalKeywords`. -/
def keywordStrategy (requiredLower patientLower : String) : Bool :=
  let requiredKeywords := medicalKeywords.filter (fun k => jsIncludes requiredLower k)
  let patientKeywords := medicalKeywords.filter (fun k => jsIncludes patientLower k)
  requiredKeywords.any (fun k => patientKeywords.contains k)

/-- Strategy 3 of the conditions check: one string contains a canonical term
of `relatedTerms` and the other contains one of its synonyms. -/
def synonymStrategy (requiredLower patientLower : String) : Bool :=
  relatedTerms.any (fun tp =>
    (jsIncludes requiredLower tp.1 && tp.2.any (fun syn => jsIncludes patientLower syn)) ||
    (jsIncludes patientLower tp.1 && tp.2.any (fun syn => jsIncludes requiredLower syn)))

/-- One (required, observed) condition pair under the three strategies, in
source order: substring, then keyword overlap, then synonym table. -/
def conditionPairMatch (requiredCondition patientCondition : String) : Bool :=
  let requiredLower := jsToLower (jsTrim requiredCondition)
  let patientLower := jsToLower (jsTrim patientCondition)
  substringStrategy requiredLower patientLower ||
  keywordStrategy requiredLower patientLower ||
  synonymStrategy requiredLower patientLower

/-- The age gate `criteria.age && patient.age` of `calculateMatch`. -/
def ageGate (c : TrialCriteria) (p : PatientData) : Bool :=
  c.age.isSome && truthyInt p.age

/-- The age test: `ageMin <= age <= ageMax` with falsy bounds defaulted to 0
and 999 (`criteria.age.min || 0`, `criteria.age.max || 999`). -/
def agePasses (c : TrialCriteria) (p : PatientData) : Bool :=
  match c.age, p.age with
  | some r, some a =>
    let ageMin : Int := if truthyInt r.min then r.min.getD 0 else 0
    let ageMax : Int := if truthyInt r.max then r.max.getD 0 else 999
    decide (ageMin ≤ a ∧ a ≤ ageMax)
  | _, _ => false

/-- The gender gate `criteria.gender && patient.gender && patient.gender !==
'unknown'` of `calculateMatch`. -/
def genderGate (c : TrialCriteria) (p : PatientData) : Bool :=
  c.gender.isSome &&
    (match p.gender with
     | some g => g != "" && g != "unknown"
     | none => false)

/-- The gender test: case-insensitive membership of the profile gender in the
criteria gender list. -/
def genderPasses (c : TrialCriteria) (p : PatientData) : Bool :=
  match c.gender, p.gender with
  | some gl, some g =>
    (gl.map (fun x => jsToLower (jsTrim x))).contains (jsToLower (jsTrim g))
  | _, _ => false

/-- The conditions gate `criteria.conditions && patient.conditions &&
patient.conditions.length > 0` of `calculateMatch`. -/
def condGate (c : TrialCriteria) (p : PatientData) : Bool :=
  c.conditions.isSome &&
    (match p.conditions with
     | some l => decide (l.length > 0)
     | none => false)

/-- The conditions test: some (required, observed) pair matches under the
three strategies. -/
def condPasses (c : TrialCriteria) (p : PatientData) : Bool :=
  match c.conditions, p.conditions with
  | some ccs, some pcs =>
    ccs.any (fun rc => pcs.any (fun pc => conditionPairMatch rc pc))
  | _, _ => false

/-- The location gate `criteria.location && patient.location` of
`calculateMatch`. -/
def locGate (c : TrialCriteria) (p : PatientData) : Bool :=
  truthyStr c.location && truthyStr p.location

/-- The location test: direct substring containment, then the state-name and
abbreviation equivalence loop over `stateMap`. -/
def locPasses (c : TrialCriteria) (p : PatientData) : Bool :=
  match c.location, p.location with
  | some cl, some pl =>
    let criteriaLoc := jsToLower (jsTrim cl)
    let patientLoc := jsToLower (jsTrim pl)
    jsIncludes patientLoc criteriaLoc ||
      stateMap.any (fun e =>
        (criteriaLoc == e.1 &&
          e.2.any (fun ab => jsEndsWith patientLoc ab || jsEndsWith patientLoc (ab ++ "."))) ||
        (e.2.contains criteriaLoc && jsIncludes patientLoc e.1))
  | _, _ => false

/-- The function `calculateMatch` from calculate-match.ts: each attribute is checked under
its gate, the breakdown key is set only under the gate, and the weight is
added to the score only when the gated test passes. -/
def calculateMatch (p : PatientData) (c : TrialCriteria) : MatchResult :=
  let weights := calculateWeights c
  let ageB : Option Bool := if ageGate c p then some (agePasses c p) else none
  let genderB : Option Bool := if genderGate c p then some (genderPasses c p) else none
  let condB : Option Bool := if condGate c p then some (condPasses c p) else none
  let locB : Option Bool := if locGate c p then some (locPasses c p) else none
  let score :=
    (if ageGate c p then (if agePasses c p then weights.age else 0) else 0) +
    (if genderGate c p then (if genderPasses c p then weights.gender else 0) else 0) +
    (if condGate c p then (if condPasses c p then weights.conditions else 0) else 0) +
    (if locGate c p then (if locPasses c p then weights.location else 0) else 0)
  ⟨score, ⟨ageB, genderB, condB, locB⟩, weights⟩

/-- C7 counterexample: for the pair (criteria `"cancer"`, profile
`"Merkel Cell Carcinoma"`) the shared-medical-keyword overlap strategy does
not fire — `"carcinoma"` is not an entry of `medicalKeywords`, so the two
lowercased strings share no keyword. -/
theorem C7_counterexample :
    keywordStrategy (jsToLower (jsTrim "cancer")) (jsToLower (jsTrim "Merkel Cell Carcinoma"))
      = false := by
  decide

/-- C7 (amended): `"Type 2 Diabetes"` matches criteria condition
`"diabetes"` via the substring strategy, and `"Merkel Cell Carcinoma"`
matches criteria condition `"cancer"` via the synonym-table strategy (the
profile string contains `"carcinoma"`, a listed synonym of `"cancer"`); both
pairs match under the full three-strategy condition matcher. -/
theorem C7_condition_strategies :
    substringStrategy (jsToLower (jsTrim "diabetes")) (jsToLower (jsTrim "Type 2 Diabetes")) = true ∧
    conditionPairMatch "diabetes" "Type 2 Diabetes" = true ∧
    synonymStrategy (jsToLower (jsTrim "cancer")) (jsToLower (jsTrim "Merkel Cell Carcinoma")) = true ∧
    conditionPairMatch "cancer" "Merkel Cell Carcinoma" = true := by
  refine ⟨by decide, by decide, by decide, by decide⟩

/- C2: gating of the per-attribute evaluation. -/

/-- Whether the Criteria side carries data for an attribute, in the sense of
the match gates: the field is non-null (for location: a non-empty string).
A present-but-empty gender or conditions list counts as present. -/
def criteriaHasAttr (c : TrialCriteria) : CField → Bool
  | .age => c.age.isSome
  | .gender => c.gender.isSome
  | .conditions => c.conditions.isSome
  | .location =>
    match c.location with
    | some s => decide (s ≠ "")
    | none => false

/-- Whether the Profile side carries usable data for an attribute: a non-zero
age, a non-empty gender other than `"unknown"`, a non-empty conditions list,
a non-empty location. -/
def profileHasAttr (p : PatientData) : CField → Bool
  | .age =>
    match p.age with
    | some a => decide (a ≠ 0)
    | none => false
  | .gender =>
    match p.gender with
    | some g => decide (g ≠ "" ∧ g ≠ "unknown")
    | none => false
  | .conditions =>
    match p.conditions with
    | some l => decide (l ≠ [])
    | none => false
  | .location =>
    match p.location with
    | some s => decide (s ≠ "")
    | none => false

/-- A Profile with no usable data for any of the four attributes. -/
def profileNoData (p : PatientData) : Bool :=
  !(allFields.any (fun f => profileHasAttr p f))

/-- The age gate agrees with both-sides-have-data. -/
theorem ageGate_eq (c : TrialCriteria) (p : PatientData) :
    ageGate c p = (criteriaHasAttr c CField.age && profileHasAttr p CField.age) := by
  rw [Bool.eq_iff_iff]
  cases h : p.age <;>
    simp [ageGate, criteriaHasAttr, profileHasAttr, truthyInt, h, bne]

/-- The gender gate agrees with both-sides-have-data. -/
theorem genderGate_eq (c : TrialCriteria) (p : PatientData) :
    genderGate c p = (criteriaHasAttr c CField.gender && profileHasAttr p CField.gender) := by
  rw [Bool.eq_iff_iff]
  cases h : p.gender <;>
    simp [genderGate, criteriaHasAttr, profileHasAttr, h, bne]

/-- The conditions gate agrees with both-sides-have-data. -/
theorem condGate_eq (c : TrialCriteria) (p : PatientData) :
    condGate c p = (criteriaHasAttr c CField.conditions && profileHasAttr p CField.conditions) := by
  rw [Bool.eq_iff_iff]
  cases h : p.conditions with
  | none => simp [condGate, criteriaHasAttr, profileHasAttr, h]
  | some l =>
    simp [condGate, criteriaHasAttr, profileHasAttr, h, List.length_pos]

/-- The location gate agrees with both-sides-have-data. -/
theorem locGate_eq (c : TrialCriteria) (p : PatientData) :
    locGate c p = (criteriaHasAttr c CField.location && profileHasAttr p CField.location) := by
  rw [Bool.eq_iff_iff]
  cases hc : c.location <;> cases hp : p.location <;>
    simp [locGate, criteriaHasAttr, profileHasAttr, truthyStr, hc, hp, bne]

/-- A Profile that is the normalized output for an empty page: no usable
attribute data. -/
def patientNoData : PatientData :=
  { gender := some "unknown", conditions := some [] }

/-- A Criteria whose gender list is present but empty. -/
def critEmptyGenderList : TrialCriteria :=
  { gender := some [] }

/-- A Profile carrying only a gender. -/
def patientMaleOnly : PatientData :=
  { gender := some "male" }

/-- C2 counterexample: with a present-but-empty criteria gender list (no
gender data in the sense of the spec) and a profile gender `"male"`, the
gender key is not omitted: the code evaluates the attribute and records a
mismatch (`some false`). -/
theorem C2_counterexample :
    critEmptyGenderList.gender = some [] ∧
    (calculateMatch patientMaleOnly critEmptyGenderList).breakdown.gender = some false := by
  exact ⟨rfl, by decide⟩

/-- C2 (amended): each attribute's breakdown key is present exactly when the
criteria field is non-null (for location: non-empty) and the profile carries
usable data for it (non-zero age; non-empty gender other than `"unknown"`;
non-empty conditions list; non-empty location) — so a present-but-empty
gender or conditions list on the criteria side still evaluates, recording a
mismatch; the score is the sum of the weights of the attributes whose
breakdown is true (omitted keys contribute zero); and a Profile with no
usable attribute data yields score 0 with an empty breakdown. -/
theorem C2_gated_evaluation (p : PatientData) (c : TrialCriteria) :
    ((calculateMatch p c).breakdown.age.isSome
        = (criteriaHasAttr c CField.age && profileHasAttr p CField.age)) ∧
    ((calculateMatch p c).breakdown.gender.isSome
        = (criteriaHasAttr c CField.gender && profileHasAttr p CField.gender)) ∧
    ((calculateMatch p c).breakdown.conditions.isSome
        = (criteriaHasAttr c CField.conditions && profileHasAttr p CField.conditions)) ∧
    ((calculateMatch p c).breakdown.location.isSome
        = (criteriaHasAttr c CField.location && profileHasAttr p CField.location)) ∧
    ((calculateMatch p c).score
        = (if (calculateMatch p c).breakdown.age = some true
            then (calculateMatch p c).weights.age else 0)
          + (if (calculateMatch p c).breakdown.gender = some true
            then (calculateMatch p c).weights.gender else 0)
          + (if (calculateMatch p c).breakdown.conditions = some true
            then (calculateMatch p c).weights.conditions else 0)
          + (if (calculateMatch p c).breakdown.location = some true
            then (calculateMatch p c).weights.location else 0)) ∧
    (profileNoData p = true →
      (calculateMatch p c).score = 0 ∧
      (calculateMatch p c).breakdown = ⟨none, none, none, none⟩) := by
  refine ⟨?_, ?_, ?_, ?_, ?_, ?_⟩
  · rw [← ageGate_eq]
    cases h : ageGate c p <;> simp [calculateMatch, h]
  · rw [← genderGate_eq]
    cases h : genderGate c p <;> simp [calculateMatch, h]
  · rw [← condGate_eq]
    cases h : condGate c p <;> simp [calculateMatch, h]
  · rw [← locGate_eq]
    cases h : locGate c p <;> simp [calculateMatch, h]
  · cases hA : ageGate c p <;> cases hG : genderGate c p <;>
      cases hC : condGate c p <;> cases hL : locGate c p <;>
      simp [calculateMatch, hA, hG, hC, hL]
  · intro h
    simp [profileNoData, allFields] at h
    obtain ⟨h1, h2, h3, h4⟩ := h
    have gA : ageGate c p = false := by rw [ageGate_eq]; simp [h1]
    have gG : genderGate c p = false := by rw [genderGate_eq]; simp [h2]
    have gC : condGate c p = false := by rw [condGate_eq]; simp [h3]
    have gL : locGate c p = false := by rw [locGate_eq]; simp [h4]
    constructor <;> simp [calculateMatch, gA, gG, gC, gL]

/-- C2 witness: the amended theorem applied to the gender-only profile and
the empty-page profile against a concrete Criteria. -/
theorem C2_witness :
    (calculateMatch patientNoData critTwoSpecified).score = 0 ∧
    (calculateMatch patientNoData critTwoSpecified).breakdown = ⟨none, none, none, none⟩ :=
  (C2_gated_evaluation patientNoData critTwoSpecified).2.2.2.2.2 (by decide)

/- Profile Normalizer: the normalization step of `extractPatientData`
(extract-patient.ts lines 109 to 154), acting on the extracted object
fields. -/

/-- The cleaning applied to `name` and `organizerName`: keep a truthy string
whose lowercasing is neither `'null'` nor `'unknown'`, else absent. -/
def cleanNullable (v : Option String) : Option String :=
  match v with
  | some s =>
    if s != "" && jsToLower s != "null" && jsToLower s != "unknown" then some s else none
  | none => none

/-- The cleaning applied to `location`: as `cleanNullable`, and additionally
the exact string `'<UNKNOWN>'` is rejected. -/
def cleanLocation (v : Option String) : Option String :=
  match v with
  | some s =>
    if s != "" && jsToLower s != "null" && jsToLower s != "unknown" && s != "<UNKNOWN>"
    then some s else none
  | none => none

/-- The cleaning applied to `gender`: keep a truthy string whose lowercasing
is not `'null'`, else default to `'unknown'`. -/
def cleanGender (v : Option String) : String :=
  match v with
  | some g => if g != "" && jsToLower g != "null" then g else "unknown"
  | none => "unknown"

/-- The cleaning applied to `conditions`: keep entries that are truthy and
whose lowercasing is neither `'null'` nor `'unknown'`; a missing list becomes
empty. -/
def cleanConditions (v : Option (List String)) : List String :=
  match v with
  | some l => l.filter (fun s => s != "" && jsToLower s != "null" && jsToLower s != "unknown")
  | none => []

/-- The cleaning applied to `age`: `object.age || undefined` (0 and null
become absent). -/
def cleanAge (v : Option Int) : Option Int :=
  if truthyInt v then v else none

/-- The Profile Normalizer: the cleaned record returned by
`extractPatientData` (the pass-through `campaign_url` / `raw_description`
parameters are not part of the extracted object). -/
def normalizePatient (p : PatientData) : PatientData :=
  { name := cleanNullable p.name,
    organizerName := cleanNullable p.organizerName,
    age := cleanAge p.age,
    gender := some (cleanGender p.gender),
    conditions := some (cleanConditions p.conditions),
    location := cleanLocation p.location }

/-- The sentinel test actually implemented: case-insensitive equality with
`'null'` or `'unknown'` only. -/
def isSentinel (s : String) : Bool :=
  jsToLower s == "null" || jsToLower s == "unknown"

/-- A raw Profile whose name is the sentinel-like token `"n/a"`. -/
def rawProfileNA : PatientData :=
  { name := some "n/a" }

/-- C4 counterexample: the token `"n/a"` is on the claim's sentinel list but
the normalizer keeps it — only `'null'` and `'unknown'` are stripped. -/
theorem C4_counterexample :
    (normalizePatient rawProfileNA).name = some "n/a" ∧
    (normalizePatient rawProfileNA).name ≠ none := by
  exact ⟨by decide, by decide⟩

/-- Helper: `cleanNullable` in terms of the sentinel test. -/
theorem cleanNullable_eq (v : Option String) :
    cleanNullable v = v.bind (fun s => if s = "" ∨ isSentinel s then none else some s) := by
  cases v with
  | none => rfl
  | some s =>
    by_cases h1 : s = "" <;> by_cases h2 : jsToLower s = "null" <;>
      by_cases h3 : jsToLower s = "unknown" <;>
      simp [cleanNullable, isSentinel, h1, h2, h3]

/-- Helper: `cleanLocation` in terms of the sentinel test. -/
theorem cleanLocation_eq (v : Option String) :
    cleanLocation v
      = v.bind (fun s => if s = "" ∨ isSentinel s ∨ s = "<UNKNOWN>" then none else some s) := by
  cases v with
  | none => rfl
  | some s =>
    by_cases h1 : s = "" <;> by_cases h2 : jsToLower s = "null" <;>
      by_cases h3 : jsToLower s = "unknown" <;> by_cases h4 : s = "<UNKNOWN>" <;>
      simp [cleanLocation, isSentinel, h1, h2, h3, h4]

/-- C4 (amended): for each nullable string field the normalizer replaces the
value with absent exactly when it is empty or case-insensitively equals
`'null'` or `'unknown'` (for location, additionally when it is exactly
`'<UNKNOWN>'`); the conditions list is filtered by the same two-token
sentinel check; gender is kept unless empty or `'null'` (case-insensitively)
and defaults to `'unknown'` rather than absent. The tokens `'n/a'`,
`'not specified'` and `'none'` and general angle-bracket wrapping are not
stripped. -/
theorem C4_sentinel_stripping (p : PatientData) :
    (normalizePatient p).name
      = p.name.bind (fun s => if s = "" ∨ isSentinel s then none else some s) ∧
    (normalizePatient p).organizerName
      = p.organizerName.bind (fun s => if s = "" ∨ isSentinel s then none else some s) ∧
    (normalizePatient p).location
      = p.location.bind (fun s => if s = "" ∨ isSentinel s ∨ s = "<UNKNOWN>" then none else some s) ∧
    (normalizePatient p).conditions
      = some ((p.conditions.getD []).filter (fun s => !(s == "" || isSentinel s))) ∧
    (normalizePatient p).gender
      = some (match p.gender with
              | some g => if g = "" ∨ jsToLower g = "null" then "unknown" else g
              | none => "unknown") := by
  refine ⟨cleanNullable_eq _, cleanNullable_eq _, cleanLocation_eq _, ?_, ?_⟩
  · show some (cleanConditions p.conditions) = _
    cases p.conditions with
    | none => rfl
    | some l =>
      simp only [cleanConditions, Option.getD_some, Option.some.injEq]
      apply List.filter_congr
      intro s _
      rw [Bool.eq_iff_iff]
      by_cases h1 : s = "" <;> by_cases h2 : jsToLower s = "null" <;>
        by_cases h3 : jsToLower s = "unknown" <;>
        simp [isSentinel, h1, h2, h3]
  · show some (cleanGender p.gender) = _
    cases p.gender with
    | none => rfl
    | some g =>
      by_cases h1 : g = "" <;> by_cases h2 : jsToLower g = "null" <;>
        simp [cleanGender, h1, h2]

/-- Idempotence of the name/organizer cleaning. -/
theorem cleanNullable_idem (v : Option String) :
    cleanNullable (cleanNullable v) = cleanNullable v := by
  rw [cleanNullable_eq v, cleanNullable_eq]
  cases v with
  | none => rfl
  | some s =>
    by_cases h : s = "" ∨ isSentinel s = true <;> simp [h]

/-- Idempotence of the location cleaning. -/
theorem cleanLocation_idem (v : Option String) :
    cleanLocation (cleanLocation v) = cleanLocation v := by
  rw [cleanLocation_eq v, cleanLocation_eq]
  cases v with
  | none => rfl
  | some s =>
    by_cases h : s = "" ∨ isSentinel s = true ∨ s = "<UNKNOWN>" <;> simp [h]

/-- Idempotence of the age cleaning. -/
theorem cleanAge_idem (v : Option Int) : cleanAge (cleanAge v) = cleanAge v := by
  unfold cleanAge
  split <;> simp_all [truthyInt]

/-- Re-cleaning a cleaned gender keeps it. -/
theorem cleanGender_idem (v : Option String) :
    cleanGender (some (cleanGender v)) = cleanGender v := by
  have hu : cleanGender (some "unknown") = "unknown" := by decide
  cases v with
  | none => exact hu
  | some g =>
    cases hc : (g != "" && jsToLower g != "null") with
    | true =>
      have h1 : cleanGender (some g) = g := by simp [cleanGender, hc]
      rw [h1]
      exact h1
    | false =>
      have h1 : cleanGender (some g) = "unknown" := by simp [cleanGender, hc]
      rw [h1]
      exact hu

/-- Re-cleaning a cleaned conditions list keeps it. -/
theorem cleanConditions_idem (v : Option (List String)) :
    cleanConditions (some (cleanConditions v)) = cleanConditions v := by
  cases v with
  | none => rfl
  | some l =>
    show List.filter _ (List.filter _ l) = List.filter _ l
    rw [List.filter_filter]
    apply List.filter_congr
    intro s _
    cases h : (s != "" && jsToLower s != "null" && jsToLower s != "unknown") <;> simp [h]

/-- C9: the Profile Normalizer is idempotent — normalizing an
already-normalized Profile changes no field. -/
theorem C9_normalize_idempotent (p : PatientData) :
    normalizePatient (normalizePatient p) = normalizePatient p := by
  unfold normalizePatient
  simp only [PatientData.mk.injEq]
  exact ⟨cleanNullable_idem _, cleanNullable_idem _, cleanAge_idem _,
    congrArg some (cleanGender_idem _), congrArg some (cleanConditions_idem _),
    cleanLocation_idem _⟩

/- Pipeline Orchestrator: the pure data path of the search route
(route.ts): merge, deduplicate, classify, cap at 15, score and sort;
external search calls are modelled by their outcomes and extraction by an
abstract function. -/

/-- A raw search hit from the search provider. -/
structure RawHit where
  url : String
  title : Option String := none
  content : String := ""
  rawContent : Option String := none
deriving DecidableEq, Repr

/-- One `Map.set` step of `new Map(allResults.map((r) => [r.url, r]))`: a
present key keeps its position and has its value replaced; a new key is
appended. -/
def mapInsert (m : List (String × RawHit)) (k : String) (v : RawHit) : List (String × RawHit) :=
  if m.any (fun e => e.1 == k) then
    m.map (fun e => if e.1 == k then (k, v) else e)
  else m ++ [(k, v)]

/-- Models `uniqueResults`: the values of the URL-keyed JavaScript Map built from
the merged hit list, in key-insertion order. -/
def dedupeByUrl (hits : List RawHit) : List RawHit :=
  (hits.foldl (fun m r => mapInsert m r.url r) []).map (fun e => e.2)

/-- The list `CROWDFUNDING_DOMAINS` from tavily/client.ts. -/
def CROWDFUNDING_DOMAINS : List String :=
  ["gofundme.com", "fundly.com", "justgiving.com", "fundrazr.com",
   "mightycause.com", "givebutter.com", "spotfund.com", "gogetfunding.com",
   "givesendgo.com", "donorbox.org", "paypal.com", "facebook.com", "plumfund.com"]

/-- The `excludePatterns` list of the route. -/
def excludePatterns : List String :=
  ["/c/start/", "/c/blog/", "/c/questions", "/c/about", "/search", "/discover",
   "/help", "/support", "/contact", "/terms", "/privacy", "/pricing",
   "/signin", "/signup", "/login", "/register", "/sitemaps/", "sitemap",
   ".xml", "/en-gb", "/en-au", "/en-ca", "/en-ie",
   "facebook.com/share", "facebook.com/groups", "facebook.com/pages"]

/-- A character matched by the givebutter slug pattern `[a-z0-9-]`. -/
def isSlugChar (c : Char) : Bool :=
  (decide ('a' ≤ c) && decide (c ≤ 'z')) || (decide ('0' ≤ c) && decide (c ≤ '9')) || c == '-'

/-- The regular-expression test `/\/[a-z0-9-]+$/`: the string ends in a
non-empty run of slug characters with a slash right before it. -/
def endsWithCampaignSlug (s : String) : Bool :=
  let rev := s.data.reverse
  let slug := rev.takeWhile isSlugChar
  !slug.isEmpty && ((rev.drop slug.length).head? == some '/')

/-- The function `isCampaignUrl` from the route: platform-specific positive URL-shape
rules, with a fallback set of platforms accepted when no exclude pattern
occurs. -/
def isCampaignUrl (url : String) : Bool :=
  let u := jsToLower url
  if jsIncludes u "gofundme.com" && jsIncludes u "/f/" then true
  else if jsIncludes u "fundly.com" && (jsIncludes u "/campaign/" || jsIncludes u "/fundraiser/") then true
  else if jsIncludes u "justgiving.com" && jsIncludes u "/fundraising/" then true
  else if jsIncludes u "fundrazr.com" && jsIncludes u "/campaign" then true
  else if jsIncludes u "givesendgo.com" && (jsIncludes u "/campaign/" || jsIncludes u "/gsg/") then true
  else if jsIncludes u "plumfund.com" && jsIncludes u "/plum/" then true
  else if jsIncludes u "givebutter.com" && endsWithCampaignSlug u then true
  else if jsIncludes u "facebook.com" && jsIncludes u "/donate/" then true
  else if (jsIncludes u "mightycause.com" || jsIncludes u "spotfund.com" ||
           jsIncludes u "gogetfunding.com" || jsIncludes u "donorbox.org" ||
           jsIncludes u "paypal.com") &&
          !(excludePatterns.any (fun p => jsIncludes u p)) then true
  else false

/-- Models `crowdfundingCampaigns`: restriction of the deduplicated hits to the
supported platform domains. -/
def crowdfundingFilter (results : List RawHit) : List RawHit :=
  results.filter (fun r => CROWDFUNDING_DOMAINS.any (fun d => jsIncludes (jsToLower r.url) d))

/-- Models `likelyCampaigns`: the classifier output — platform rule holds and no
generic exclude pattern occurs in the lowercased URL. -/
def likelyCampaigns (uniqueResults : List RawHit) : List RawHit :=
  (crowdfundingFilter uniqueResults).filter (fun r =>
    isCampaignUrl (jsToLower r.url) &&
    !(excludePatterns.any (fun p => jsIncludes (jsToLower r.url) (jsToLower p))))

/-- One scored entry of the final `matches` list. -/
structure ScoredMatch where
  patient : PatientData
  matchScore : Nat
  criteriaBreakdown : Breakdown
deriving DecidableEq, Repr

/-- Stable descending insertion by `matchScore` (the semantics of the
stable JavaScript `sort((a, b) => b.matchScore - a.matchScore)`). -/
def insertDesc (x : ScoredMatch) : List ScoredMatch → List ScoredMatch
  | [] => [x]
  | y :: ys => if y.matchScore < x.matchScore then x :: y :: ys else y :: insertDesc x ys

/-- Stable sort of the matches by descending score. -/
def sortByScoreDesc : List ScoredMatch → List ScoredMatch
  | [] => []
  | x :: xs => insertDesc x (sortByScoreDesc xs)

/-- The payload of the final `complete` event. -/
structure CompleteData where
  totalResults : Nat
  matchList : List ScoredMatch
  message : Option String
deriving DecidableEq, Repr

/-- The terminal event of a run. -/
inductive RunEvent where
  | complete (data : CompleteData)
  | error (message : String)
deriving DecidableEq, Repr

/-- The advisory message of the zero-candidate completion. -/
def advisoryMessage : String :=
  "No crowdfunding campaigns found. Try broadening your search criteria."

/-- The pure data path of one run after query generation: each search
outcome is `none` for a failed call (replaced by an empty hit list by the
per-promise catch) or `some hits`; hits are merged, deduplicated, classified,
capped at 15, extracted by the abstract `extract`, scored and sorted. -/
def pipelineComplete (criteria : TrialCriteria)
    (searchOutcomes : List (Option (List RawHit)))
    (extract : RawHit → PatientData) : CompleteData :=
  let searchResults := searchOutcomes.map (fun o => o.getD [])
  let allResults := searchResults.flatten
  let uniqueResults := dedupeByUrl allResults
  let likely := likelyCampaigns uniqueResults
  if likely.length = 0 then
    ⟨0, [], some advisoryMessage⟩
  else
    let campaignsToProcess := likely.take 15
    let patients := campaignsToProcess.map extract
    let sortedMatches := sortByScoreDesc (patients.map (fun p =>
      ScoredMatch.mk p (calculateMatch p criteria).score (calculateMatch p criteria).breakdown))
    ⟨likely.length, sortedMatches, none⟩

/-- The terminal event of a run whose criteria parsing and query generation
succeeded: search failures are absorbed per call, so the run always
completes. -/
def runFromSearchOutcomes (criteria : TrialCriteria)
    (searchOutcomes : List (Option (List RawHit)))
    (extract : RawHit → PatientData) : RunEvent :=
  RunEvent.complete (pipelineComplete criteria searchOutcomes extract)

/-- Merging all-failed search outcomes yields the empty hit list. -/
theorem flatten_of_all_none (outcomes : List (Option (List RawHit)))
    (h : ∀ o ∈ outcomes, o = none) :
    (outcomes.map (fun o => o.getD [])).flatten = ([] : List RawHit) := by
  induction outcomes with
  | nil => rfl
  | cons o os ih =>
    have ho : o = none := h o (List.mem_cons_self o os)
    have hos : ∀ x ∈ os, x = none := fun x hx => h x (List.mem_cons_of_mem o hx)
    simp [ho, ih hos]

/-- C5: when every search-provider call fails, every per-call catch
substitutes an empty hit list, no candidate survives, and the run ends in a
`complete` event with `totalResults` 0, an empty match list and the advisory
message — not in an `error` event. -/
theorem C5_all_failures_complete (criteria : TrialCriteria)
    (extract : RawHit → PatientData)
    (outcomes : List (Option (List RawHit)))
    (h : ∀ o ∈ outcomes, o = none) :
    runFromSearchOutcomes criteria outcomes extract
      = RunEvent.complete ⟨0, [], some advisoryMessage⟩ := by
  unfold runFromSearchOutcomes pipelineComplete
  simp only [flatten_of_all_none outcomes h]
  rfl

/-- A run with two failed search calls. -/
def failedOutcomes : List (Option (List RawHit)) := [none, none]

/-- C5 witness: a concrete run whose two search calls both failed. -/
theorem C5_witness :
    runFromSearchOutcomes critTwoSpecified failedOutcomes (fun _ => patientNoData)
      = RunEvent.complete ⟨0, [], some advisoryMessage⟩ :=
  C5_all_failures_complete critTwoSpecified (fun _ => patientNoData) failedOutcomes (by decide)

/-- C6: the classifier output never contains a hit whose lowercased URL
contains an exclude pattern — the classification predicate conjoins the
negation of exactly that test, for every platform. -/
theorem C6_excluded_never_accepted (hits : List RawHit) (r : RawHit)
    (hr : r ∈ likelyCampaigns hits) (p : String) (hp : p ∈ excludePatterns) :
    jsIncludes (jsToLower r.url) (jsToLower p) = false := by
  have hpred := (List.mem_filter.mp hr).2
  rw [Bool.and_eq_true] at hpred
  have hno := hpred.2
  rw [Bool.not_eq_true'] at hno
  cases hq : jsIncludes (jsToLower r.url) (jsToLower p) with
  | false => rfl
  | true =>
    exfalso
    have hany : excludePatterns.any (fun q => jsIncludes (jsToLower r.url) (jsToLower q)) = true :=
      List.any_eq_true.mpr ⟨p, hp, hq⟩
    rw [hno] at hany
    exact Bool.false_ne_true hany

/-- A genuine gofundme campaign hit. -/
def gofundmeHit : RawHit := { url := "https://www.gofundme.com/f/save-john" }

/-- C6 witness: the accepted gofundme hit contains no exclude pattern. -/
theorem C6_witness :
    jsIncludes (jsToLower gofundmeHit.url) (jsToLower "/search") = false :=
  C6_excluded_never_accepted [gofundmeHit] gofundmeHit (by decide) "/search" (by decide)

/-- Inserting into the sorted list grows it by one. -/
theorem length_insertDesc (x : ScoredMatch) (l : List ScoredMatch) :
    (insertDesc x l).length = l.length + 1 := by
  induction l with
  | nil => rfl
  | cons y ys ih =>
    unfold insertDesc
    split <;> simp [ih]

/-- The stable sort preserves length. -/
theorem length_sortByScoreDesc (l : List ScoredMatch) :
    (sortByScoreDesc l).length = l.length := by
  induction l with
  | nil => rfl
  | cons x xs ih => simp [sortByScoreDesc, length_insertDesc, ih]

/-- C10: only the first 15 classified candidates are extracted and scored,
so the final match list has length `min totalResults 15`; in particular at
most 15 even when `totalResults` (the classified-candidate count) is
larger. -/
theorem C10_matches_capped (criteria : TrialCriteria)
    (outcomes : List (Option (List RawHit))) (extract : RawHit → PatientData) :
    (pipelineComplete criteria outcomes extract).matchList.length
        = min (pipelineComplete criteria outcomes extract).totalResults 15 ∧
    (pipelineComplete criteria outcomes extract).matchList.length ≤ 15 := by
  unfold pipelineComplete
  by_cases h :
      (likelyCampaigns (dedupeByUrl ((outcomes.map (fun o => o.getD [])).flatten))).length = 0
  · simp [h]
  · simp [h, length_sortByScoreDesc, List.length_map, List.length_take]
    omega

/- Characterization of `dedupeByUrl`: one entry per URL, in first-occurrence
position, carrying the last occurrence's record. -/

/-- The values stored under a key in the Map model. -/
def valsAt (u : String) (m : List (String × RawHit)) : List RawHit :=
  (m.filter (fun e => e.1 == u)).map (fun e => e.2)

/-- Inserting under a head entry with a different key skips it. -/
theorem mapInsert_cons_ne (e : String × RawHit) (m : List (String × RawHit))
    (k : String) (v : RawHit) (h : (e.1 == k) = false) :
    mapInsert (e :: m) k v = e :: mapInsert m k v := by
  have hne : e.1 ≠ k := by simpa using h
  cases ha : m.any (fun x => x.1 == k) with
  | true => simp [mapInsert, List.any_cons, h, ha, hne]
  | false => simp [mapInsert, List.any_cons, h, ha, hne]

/-- Inserting at the head entry's key, when the key occurs only there, replaces it. -/
theorem mapInsert_cons_eq (e : String × RawHit) (m : List (String × RawHit))
    (v : RawHit) (hnd : e.1 ∉ m.map Prod.fst) :
    mapInsert (e :: m) e.1 v = (e.1, v) :: m := by
  have hany : (e :: m).any (fun x => x.1 == e.1) = true := by
    simp [List.any_cons]
  simp only [mapInsert, hany, if_true, List.map_cons, beq_self_eq_true, if_pos]
  have hm : m.map (fun x => if x.1 == e.1 then (e.1, v) else x) = m.map id := by
    apply List.map_congr_left
    intro x hx
    have hne : x.1 ≠ e.1 := by
      intro hh
      exact hnd (hh ▸ List.mem_map_of_mem Prod.fst hx)
    simp [hne]
  rw [hm, List.map_id]

/-- Insertion preserves distinctness of the stored keys. -/
theorem keysNodup_mapInsert (m : List (String × RawHit)) (k : String) (v : RawHit)
    (h : (m.map Prod.fst).Nodup) : ((mapInsert m k v).map Prod.fst).Nodup := by
  cases ha : m.any (fun e => e.1 == k) with
  | true =>
    have hkeys : ((m.map (fun e => if e.1 == k then (k, v) else e)).map Prod.fst)
        = m.map Prod.fst := by
      rw [List.map_map]
      apply List.map_congr_left
      intro e _
      cases hek : (e.1 == k) with
      | true =>
        have heq : e.1 = k := eq_of_beq hek
        simp [heq]
      | false =>
        have hne : e.1 ≠ k := by simpa using hek
        simp [hne]
    unfold mapInsert
    rw [if_pos ha, hkeys]
    exact h
  | false =>
    have hk : k ∉ m.map Prod.fst := by
      intro hmem
      rcases List.mem_map.mp hmem with ⟨e, he, hek⟩
      have hbeq : (e.1 == k) = true := by
        rw [hek]
        exact beq_self_eq_true k
      have : (m.any fun e => e.1 == k) = true := List.any_eq_true.mpr ⟨e, he, hbeq⟩
      rw [ha] at this
      exact Bool.false_ne_true this
    unfold mapInsert
    rw [if_neg (by simp [ha]), List.map_append]
    simp [List.nodup_append, h, hk, List.disjoint_singleton]

/-- A key absent from the Map holds no values. -/
theorem valsAt_eq_nil (u : String) (m : List (String × RawHit))
    (h : u ∉ m.map Prod.fst) : valsAt u m = [] := by
  unfold valsAt
  have : m.filter (fun e => e.1 == u) = [] := by
    rw [List.filter_eq_nil_iff]
    intro e he hu
    exact h (by exact (eq_of_beq hu) ▸ List.mem_map_of_mem Prod.fst he)
  rw [this, List.map_nil]

/-- After `Map.set m u v`, the key `u` holds exactly `v`. -/
theorem valsAt_mapInsert_self (u : String) (v : RawHit) :
    ∀ m : List (String × RawHit), (m.map Prod.fst).Nodup →
      valsAt u (mapInsert m u v) = [v]
  | [], _ => by simp [mapInsert, valsAt]
  | e :: m, hnd => by
    have hnd2 := hnd
    rw [List.map_cons, List.nodup_cons] at hnd2
    cases hek : (e.1 == u) with
    | true =>
      have heq : e.1 = u := eq_of_beq hek
      have hins : mapInsert (e :: m) u v = (u, v) :: m := by
        rw [← heq]
        exact mapInsert_cons_eq e m v hnd2.1
      rw [hins]
      unfold valsAt
      rw [List.filter_cons_of_pos (by simp)]
      have : valsAt u m = [] := valsAt_eq_nil u m (heq ▸ hnd2.1)
      unfold valsAt at this
      rw [List.map_cons, this]
    | false =>
      rw [mapInsert_cons_ne e m u v hek]
      unfold valsAt
      rw [List.filter_cons_of_neg (by simp [hek])]
      exact valsAt_mapInsert_self u v m hnd2.2

/-- Insertion at one key leaves the values at another key unchanged. -/
theorem valsAt_mapInsert_ne (u k : String) (v : RawHit) (hku : (k == u) = false) :
    ∀ m : List (String × RawHit), (m.map Prod.fst).Nodup →
      valsAt u (mapInsert m k v) = valsAt u m
  | [], _ => by simp [mapInsert, valsAt, hku]
  | e :: m, hnd => by
    have hnd2 := hnd
    rw [List.map_cons, List.nodup_cons] at hnd2
    cases hek : (e.1 == k) with
    | true =>
      have heq : e.1 = k := eq_of_beq hek
      have hins : mapInsert (e :: m) k v = (k, v) :: m := by
        rw [← heq]
        exact mapInsert_cons_eq e m v hnd2.1
      rw [hins]
      unfold valsAt
      rw [List.filter_cons_of_neg (by simp [hku]),
        List.filter_cons_of_neg (by simp [heq, hku])]
    | false =>
      rw [mapInsert_cons_ne e m k v hek]
      unfold valsAt
      cases heu : (e.1 == u) with
      | true =>
        rw [List.filter_cons_of_pos (by simp [heu]), List.filter_cons_of_pos (by simp [heu]),
          List.map_cons, List.map_cons]
        have := valsAt_mapInsert_ne u k v hku m hnd2.2
        unfold valsAt at this
        rw [this]
      | false =>
        rw [List.filter_cons_of_neg (by simp [heu]), List.filter_cons_of_neg (by simp [heu])]
        exact valsAt_mapInsert_ne u k v hku m hnd2.2

/-- Folding the hit list into the Map: the values stored under `u` are the
last hit with URL `u`, or the Map's previous values when no hit has URL
`u`. -/
theorem build_valsAt (u : String) :
    ∀ (hits : List RawHit) (m : List (String × RawHit)), (m.map Prod.fst).Nodup →
      valsAt u (hits.foldl (fun acc r => mapInsert acc r.url r) m)
        = ((hits.filter (fun r => r.url == u)).getLast?).elim (valsAt u m) (fun r => [r])
  | [], m, _ => rfl
  | r :: hits, m, hnd => by
    rw [List.foldl_cons]
    have hnd' := keysNodup_mapInsert m r.url r hnd
    rw [build_valsAt u hits (mapInsert m r.url r) hnd']
    cases hru : (r.url == u) with
    | true =>
      rw [List.filter_cons_of_pos (by simp [hru])]
      cases hfl : hits.filter (fun x => x.url == u) with
      | nil =>
        simp only [List.getLast?_singleton, List.getLast?_nil, Option.elim_none, Option.elim_some]
        have heq : r.url = u := eq_of_beq hru
        rw [← heq]
        exact valsAt_mapInsert_self r.url r m hnd
      | cons a as =>
        rw [List.getLast?_cons_cons]
        cases hgl : (a :: as).getLast? with
        | none => exact absurd (List.getLast?_eq_none_iff.mp hgl) (by simp)
        | some x => rfl
    | false =>
      rw [List.filter_cons_of_neg (by simp [hru])]
      rw [valsAt_mapInsert_ne u r.url r hru m hnd]

/-- Every entry of the built Map stores a hit whose URL is its key. -/
theorem build_wf (hits : List RawHit) :
    ∀ (m : List (String × RawHit)), (∀ e ∈ m, e.2.url = e.1) →
      ∀ e ∈ hits.foldl (fun acc r => mapInsert acc r.url r) m, e.2.url = e.1 := by
  induction hits with
  | nil => exact fun m hm => hm
  | cons r hits ih =>
    intro m hm
    rw [List.foldl_cons]
    apply ih
    intro e he
    unfold mapInsert at he
    by_cases ha : m.any (fun x => x.1 == r.url) = true
    · rw [if_pos ha] at he
      rcases List.mem_map.mp he with ⟨x, hx, hxe⟩
      by_cases hxk : (x.1 == r.url) = true
      · rw [if_pos hxk] at hxe
        rw [← hxe]
      · rw [if_neg hxk] at hxe
        exact hxe ▸ hm x hx
    · rw [if_neg ha] at he
      rcases List.mem_append.mp he with hin | hin
      · exact hm e hin
      · rw [List.mem_singleton.mp hin]

/-- A Profile hit deduplicated away: two hits with the same URL. -/
def hitFirst : RawHit := { url := "https://www.gofundme.com/f/save-ann", content := "first" }

/-- The later duplicate of `hitFirst` with different content. -/
def hitSecond : RawHit := { url := "https://www.gofundme.com/f/save-ann", content := "second" }

/-- C3 counterexample: with two hits of identical URL and different content,
the deduplicated list holds exactly one entry for the URL, but it carries the
content of the second (last) occurrence, not the first. -/
theorem C3_counterexample :
    hitFirst.url = hitSecond.url ∧ hitFirst.content ≠ hitSecond.content ∧
    dedupeByUrl [hitFirst, hitSecond] = [hitSecond] ∧
    dedupeByUrl [hitFirst, hitSecond] ≠ [hitFirst] := by
  refine ⟨rfl, by decide, by decide, by decide⟩

/-- C3 (amended): deduplication is by exact URL and yields, for every URL,
exactly the last hit with that URL in input order (in first-occurrence
position): filtering the deduplicated list to a URL gives precisely the last
input occurrence for that URL. -/
theorem C3_dedupe_last_wins (hits : List RawHit) (u : String) :
    (dedupeByUrl hits).filter (fun r => r.url == u)
      = ((hits.filter (fun r => r.url == u)).getLast?).toList := by
  unfold dedupeByUrl
  rw [List.filter_map (fun e => e.2) (hits.foldl (fun acc r => mapInsert acc r.url r) [])]
  have hwf := build_wf hits [] (by intro e he; cases he)
  have hcongr :
      (hits.foldl (fun acc r => mapInsert acc r.url r) []).filter
          ((fun r => r.url == u) ∘ (fun e => e.2))
        = (hits.foldl (fun acc r => mapInsert acc r.url r) []).filter (fun e => e.1 == u) := by
    apply List.filter_congr
    intro e he
    simp only [Function.comp]
    rw [hwf e he]
  rw [hcongr]
  have hmain := build_valsAt u hits [] (by simp)
  unfold valsAt at hmain
  rw [hmain]
  cases hgl : (hits.filter (fun r => r.url == u)).getLast? with
  | none => rfl
  | some x => rfl

end ClinicalMatch
